import Mathlib

set_option maxRecDepth 8000

/-
Verification of the notification fan-out dispatcher of the
DA0-DA0/telegram-notifier-cf-worker repository.

The definitions below are a shallow embedding of the route handler
`notify` in src/routes/notify.ts (the typed-event version) together with
`escapeMarkdownV2` from src/utils/misc.ts.  External collaborators are
modelled as parameters:
  - the markdown stripper from the npm package remove-markdown is an
    arbitrary function `rm : String → String` (its code is not part of
    this repository);
  - the D1 registration store is a lookup function
    `db : String → String → List Registration` and the rows it returns;
  - the Telegram HTTP client is an oracle
    `f2 : Nat → Nat → FetchOutcome` giving, for registration index i and
    attempt index k, whether the fetch call resolved (with some HTTP
    status) or threw a network error.
The handler is modelled as a pure function returning the HTTP response
and the ordered trace of observable effects (database accesses and
outbound sendMessage calls).
-/

namespace DaoNotifier

/-! ### Constants of src/routes/notify.ts -/

def BATCH_SIZE : Nat := 10

def RETRIES : Nat := 3

def MAX_DESCRIPTION_LENGTH : Nat := 500

/-! ### Markdown escaping, src/utils/misc.ts

The source is
  text.replace(/[\\_*\[\]\(\)~`>#+-=\|{}\.!]/g, "\\$&")
Inside the character class, `+-=` is a range, so every character with
code between 43 and 61 (this includes the digits, comma, slash, colon,
semicolon and the angle bracket 60) is escaped as well; the class is the
MarkdownV2 reserved set united with that range. -/

def reservedChars : List Char :=
  ['\\', '_', '*', '[', ']', '(', ')', '~', Char.ofNat 96, '>', '#',
   '+', '-', '=', '|', Char.ofNat 123, Char.ofNat 125, '.', '!']

def isReserved (c : Char) : Bool := reservedChars.contains c

def isEscapedChar (c : Char) : Bool := isReserved c || ('+' ≤ c && c ≤ '=')

def escapeChars : List Char → List Char
  | [] => []
  | c :: cs => if isEscapedChar c then '\\' :: c :: escapeChars cs else c :: escapeChars cs

def escapeMarkdownV2 (s : String) : String := ⟨escapeChars s.data⟩

/-! ### The quoted description reflow

The templates embed the escaped description via
  .trim().split("\n").join("\n>")
(the ASCII part of the JS whitespace set is modelled). -/

def isJsWhitespace (c : Char) : Bool :=
  c = ' ' || c = '\t' || c = '\n' || c = '\r' || c = Char.ofNat 11 || c = Char.ofNat 12

def trimRight : List Char → List Char
  | [] => []
  | c :: rest =>
    match trimRight rest with
    | [] => if isJsWhitespace c then [] else [c]
    | r => c :: r

def trimChars (l : List Char) : List Char := trimRight (l.dropWhile isJsWhitespace)

def splitNl : List Char → List (List Char)
  | [] => [[]]
  | c :: rest =>
    if c = '\n' then [] :: splitNl rest
    else
      match splitNl rest with
      | [] => [[c]]
      | p :: ps => (c :: p) :: ps

def quoteReflow (s : String) : String :=
  ⟨List.intercalate ['\n', '>'] (splitNl (trimChars s.data))⟩

/-! ### The message templates (the `text` ternary chain in notify) -/

def outcomeSuffix : Option String → String
  | none => ""
  | some w => if w.data = [] then "" else "\n>\n>Outcome: *" ++ escapeMarkdownV2 w ++ "*"

def buildText (type proposalId url daoName daoUrl proposalTitle sanitizedDescription : String)
    (winningChoice : Option String) : String :=
  if type = "proposal_created" then
    "_[Proposal " ++ escapeMarkdownV2 proposalId ++ "](" ++ url ++
      ") is open for voting in [" ++ escapeMarkdownV2 daoName ++ "](" ++ daoUrl ++
      ")\\._\n\n>*" ++ escapeMarkdownV2 proposalTitle ++ "*\n>\n>" ++
      quoteReflow (escapeMarkdownV2 sanitizedDescription)
  else if type = "proposal_executed" then
    "_[Proposal " ++ escapeMarkdownV2 proposalId ++ "](" ++ url ++
      ") in [" ++ escapeMarkdownV2 daoName ++ "](" ++ daoUrl ++
      ")\\ was passed and executed\\._\n\n>*" ++ escapeMarkdownV2 proposalTitle ++ "*\n>\n>" ++
      quoteReflow (escapeMarkdownV2 sanitizedDescription) ++ outcomeSuffix winningChoice
  else if type = "proposal_execution_failed" then
    "_[Proposal " ++ escapeMarkdownV2 proposalId ++ "](" ++ url ++
      ") in [" ++ escapeMarkdownV2 daoName ++ "](" ++ daoUrl ++
      ")\\ was passed but failed to execute\\._\n\n>*" ++ escapeMarkdownV2 proposalTitle ++ "*\n>\n>" ++
      quoteReflow (escapeMarkdownV2 sanitizedDescription) ++ outcomeSuffix winningChoice
  else if type = "proposal_closed" then
    "_[Proposal " ++ escapeMarkdownV2 proposalId ++ "](" ++ url ++
      ") in [" ++ escapeMarkdownV2 daoName ++ "](" ++ daoUrl ++
      ")\\ was rejected and closed\\._\n\n>*" ++ escapeMarkdownV2 proposalTitle ++ "*\n>\n>" ++
      quoteReflow (escapeMarkdownV2 sanitizedDescription)
  else ""

def validTypes : List String :=
  ["proposal_created", "proposal_executed", "proposal_execution_failed", "proposal_closed"]

/-! ### JS number conversion

`Number(chatId)` converts the stored decimal string to an IEEE-754
double.  For an integer input this is exact up to 2 ^ 53 and rounds to
nearest (ties to even) above it; `JsNum.nan` models the NaN result of a
non-numeric string. -/

inductive JsNum
  | nan
  | int (n : Int)
deriving DecidableEq

def digitsVal (ds : List Char) : Option Nat :=
  if ds = [] then none
  else if ds.all Char.isDigit then
    some (ds.foldl (fun a c => a * 10 + (c.toNat - 48)) 0)
  else none

def parseDecInt (s : String) : Option Int :=
  match s.data with
  | '-' :: rest => (digitsVal rest).map (fun n => -(n : Int))
  | '+' :: rest => (digitsVal rest).map (fun n => (n : Int))
  | ds => (digitsVal ds).map (fun n => (n : Int))

def bitLenAux : Nat → Nat → Nat
  | 0, _ => 0
  | fuel + 1, n => if n = 0 then 0 else bitLenAux fuel (n / 2) + 1

def bitLen (n : Nat) : Nat := bitLenAux n n

def roundFloat64Nat (m : Nat) : Nat :=
  if m ≤ 2 ^ 53 then m
  else
    let e := bitLen m - 53
    let q := m / 2 ^ e
    let r := m % 2 ^ e
    let h := 2 ^ (e - 1)
    (if h < r then q + 1 else if r < h then q else if q % 2 = 0 then q else q + 1) * 2 ^ e

def roundFloat64Int (n : Int) : Int :=
  if 0 ≤ n then (roundFloat64Nat n.toNat : Int) else -((roundFloat64Nat (-n).toNat : Int))

def jsNumber (s : String) : JsNum :=
  if s.data = [] then JsNum.int 0
  else
    match parseDecInt s with
    | some v => JsNum.int (roundFloat64Int v)
    | none => JsNum.nan

/-! ### Data model -/

structure Registration where
  chatId : String
  messageThreadId : Option String
deriving DecidableEq

structure Env where
  BOT_TOKEN : String
  NOTIFY_API_KEY : String
deriving DecidableEq

/-- The request: path parameters (chainId, dao) and the parsed JSON body.
Absent JSON fields are `none`; `type` is the `_type` body field before the
backwards-compatibility default is applied. -/
structure NotifyRequest where
  chainId : Option String
  dao : Option String
  type : Option String
  apiKey : Option String
  daoName : String
  proposalTitle : String
  proposalDescription : String
  proposalId : String
  daoUrl : String
  url : String
  winningChoice : Option String
deriving DecidableEq

/-- Response body: `error msg` models the respondError JSON and
`ok count` models the success JSON with success equal to true. -/
inductive RespBody
  | error (msg : String)
  | ok (count : Nat)
deriving DecidableEq

structure Resp where
  status : Nat
  body : RespBody
deriving DecidableEq

/-- The JSON body of one sendMessage fetch call (the fields that depend
on the registration and the rendered message). -/
structure SendArgs where
  chat_id : JsNum
  message_thread_id : Option JsNum
  text : String
deriving DecidableEq

/-- Observable side effects of the handler.  `dbWrite` is the mutation
interface of the registration store (used by the telegram webhook
routes, which are outside this handler); it is part of the effect type
so that its absence from every notify trace is a meaningful statement. -/
inductive Effect
  | dbQuery (sql : String) (param1 : String) (param2 : String)
  | dbWrite (sql : String) (params : List String)
  | sendMessage (args : SendArgs)
deriving DecidableEq

/-- Outcome of one fetch call: the promise resolved with some HTTP
status code, or it rejected (network-level error, which the source
catches). -/
inductive FetchOutcome
  | completed (status : Nat)
  | thrown
deriving DecidableEq

/-! ### The dispatch loop -/

/-- The arguments passed to fetch for one registration: `Number(chatId)`,
`messageThreadId ? Number(messageThreadId) : undefined` (the empty
string is falsy in JS), and the rendered text. -/
def registrationArgs (text : String) (reg : Registration) : SendArgs :=
  SendArgs.mk (jsNumber reg.chatId)
    (match reg.messageThreadId with
     | none => none
     | some s => if s.data = [] then none else some (jsNumber s))
    text

/-- The inner retry loop `for (let i = RETRIES; i > 0; i--)`: `fuel` is
the loop variable i, `attempt` counts the fetch calls already made; the
result is the boolean returned to Promise.all plus the fetch calls
issued.  A resolved fetch returns true immediately; a rejection retries
while i is greater than 1 and otherwise returns false. -/
def attemptSend (f : Nat → FetchOutcome) (args : SendArgs) : Nat → Nat → Bool × List Effect
  | 0, _ => (false, [])
  | fuel + 1, attempt =>
    match f attempt with
    | FetchOutcome.completed _ => (true, [Effect.sendMessage args])
    | FetchOutcome.thrown =>
      if 0 < fuel then
        ((attemptSend f args fuel (attempt + 1)).1,
          Effect.sendMessage args :: (attemptSend f args fuel (attempt + 1)).2)
      else (false, [Effect.sendMessage args])

def attemptsResult (f : Nat → FetchOutcome) : Nat → Nat → Bool
  | 0, _ => false
  | fuel + 1, attempt =>
    match f attempt with
    | FetchOutcome.completed _ => true
    | FetchOutcome.thrown => if 0 < fuel then attemptsResult f fuel (attempt + 1) else false

def deliverOne (f : Nat → FetchOutcome) (args : SendArgs) : Bool × List Effect :=
  attemptSend f args RETRIES 0

def deliverySuccess (f : Nat → FetchOutcome) : Bool := attemptsResult f RETRIES 0

/-- One batch: every registration is dispatched (Promise.all awaits all
of them); the trace lists the calls in registration order, a canonical
linearisation of the concurrent batch. -/
def processBatch (f2 : Nat → Nat → FetchOutcome) (text : String) :
    Nat → List Registration → Nat × List Effect
  | _, [] => (0, [])
  | start, reg :: rest =>
    ((if (deliverOne (f2 start) (registrationArgs text reg)).1 then 1 else 0) +
        (processBatch f2 text (start + 1) rest).1,
      (deliverOne (f2 start) (registrationArgs text reg)).2 ++
        (processBatch f2 text (start + 1) rest).2)

def processBatches (f2 : Nat → Nat → FetchOutcome) (text : String) :
    Nat → List (List Registration) → Nat × List Effect
  | _, [] => (0, [])
  | start, b :: bs =>
    ((processBatch f2 text start b).1 + (processBatches f2 text (start + b.length) bs).1,
      (processBatch f2 text start b).2 ++ (processBatches f2 text (start + b.length) bs).2)

/-- Per-registration success count, indexed from `start`. -/
def succCount (f2 : Nat → Nat → FetchOutcome) : Nat → List Registration → Nat
  | _, [] => 0
  | start, _ :: rest => (if deliverySuccess (f2 start) then 1 else 0) + succCount f2 (start + 1) rest

/-- The per-batch slices of the effect trace, in batch order. -/
def batchBlocks (f2 : Nat → Nat → FetchOutcome) (text : String) :
    Nat → List (List Registration) → List (List Effect)
  | _, [] => []
  | start, b :: bs => (processBatch f2 text start b).2 :: batchBlocks f2 text (start + b.length) bs

/-- The batching loop `for (let i = 0; i < n; i += BATCH_SIZE)` with
`registrations.slice(i, i + BATCH_SIZE)`, as consecutive chunks; the
fuel argument only serves termination and is fixed to the list length. -/
def chunkListAux {α : Type} (n : Nat) : Nat → List α → List (List α)
  | 0, _ => []
  | _ + 1, [] => []
  | fuel + 1, x :: xs => (x :: xs).take n :: chunkListAux n fuel ((x :: xs).drop n)

def chunkList {α : Type} (n : Nat) (l : List α) : List (List α) := chunkListAux n l.length l

def dispatchAll (f2 : Nat → Nat → FetchOutcome) (text : String) (regs : List Registration) :
    Nat × List Effect :=
  processBatches f2 text 0 (chunkList BATCH_SIZE regs)

/-! ### The route handler -/

/-- JS truthiness of an optional string: undefined and the empty string
are falsy. -/
def strTruthy : Option String → Bool
  | none => false
  | some s =>
    match s.data with
    | [] => false
    | _ :: _ => true

/-- let sanitizedDescription = removeMarkdown(proposalDescription);
truncated to MAX_DESCRIPTION_LENGTH with a "..." marker. -/
def sanitizeDescription (rm : String → String) (raw : String) : String :=
  if MAX_DESCRIPTION_LENGTH < (rm raw).length then
    ⟨(rm raw).data.take MAX_DESCRIPTION_LENGTH ++ "...".data⟩
  else rm raw

/-- The rendered message of a request: the backwards-compatibility
default applies `proposal_created` when `_type` is nullish. -/
def requestText (rm : String → String) (req : NotifyRequest) : String :=
  buildText (req.type.getD "proposal_created") req.proposalId req.url req.daoName req.daoUrl
    req.proposalTitle (sanitizeDescription rm req.proposalDescription) req.winningChoice

def SELECT_SQL : String :=
  "SELECT chatId, messageThreadId FROM registrations WHERE chainId = ?1 AND dao = ?2"

/-- The notify route handler: validation, rendering, the single SELECT,
and the batched fan-out with retries; returns the response and the
effect trace. -/
def notify (rm : String → String) (db : String → String → List Registration)
    (f2 : Nat → Nat → FetchOutcome) (env : Env) (req : NotifyRequest) : Resp × List Effect :=
  if strTruthy req.chainId = false then (Resp.mk 400 (RespBody.error "Missing `chainId`."), [])
  else if strTruthy req.dao = false then (Resp.mk 400 (RespBody.error "Missing `dao`."), [])
  else if req.apiKey ≠ some env.NOTIFY_API_KEY then
    (Resp.mk 401 (RespBody.error "Invalid API key."), [])
  else if (requestText rm req).data = [] then
    (Resp.mk 400 (RespBody.error "Invalid notification type."), [])
  else
    (Resp.mk 200 (RespBody.ok
        (dispatchAll f2 (requestText rm req) (db (req.chainId.getD "") (req.dao.getD ""))).1),
      Effect.dbQuery SELECT_SQL (req.chainId.getD "") (req.dao.getD "") ::
        (dispatchAll f2 (requestText rm req) (db (req.chainId.getD "") (req.dao.getD ""))).2)

/-! ### Concrete fixtures used by witnesses and counterexamples -/

def exId : String → String := fun s => s

def exEnv : Env := Env.mk "token" "secret"

def exDb1 : String → String → List Registration := fun _ _ => [Registration.mk "1" none]

def exOkOracle : Nat → Nat → FetchOutcome := fun _ _ => FetchOutcome.completed 200

def exReq : NotifyRequest :=
  NotifyRequest.mk (some "chain-1") (some "dao1") none (some "secret")
    "Dao" "Title" "Desc" "42" "https://dao" "https://prop" none

def exReqBadType : NotifyRequest :=
  NotifyRequest.mk (some "chain-1") (some "dao1") (some "bogus") (some "secret")
    "Dao" "Title" "Desc" "42" "https://dao" "https://prop" none

def exReqBadKey : NotifyRequest :=
  NotifyRequest.mk (some "chain-1") (some "dao1") (some "bogus") (some "wrong")
    "Dao" "Title" "Desc" "42" "https://dao" "https://prop" none

/-! ### Escaping invariants -/

/-- Scan for a reserved MarkdownV2 character that is not covered by a
preceding backslash (a backslash covers the character right after it). -/
def noUnescapedReserved : List Char → Bool
  | [] => true
  | ['\\'] => false
  | '\\' :: _ :: rest2 => noUnescapedReserved rest2
  | c :: rest => !isReserved c && noUnescapedReserved rest

/-- Scan for an occurrence of `target` that is not covered by a
preceding backslash. -/
def hasUnescaped (target : Char) : List Char → Bool
  | [] => false
  | ['\\'] => false
  | '\\' :: _ :: rest2 => hasUnescaped target rest2
  | c :: rest => c = target || hasUnescaped target rest

/-- Shape of escapeMarkdownV2 output: a sequence of groups, each either
a backslash followed by a character of the escape class, or a single
character outside the escape class. -/
inductive EscShape : List Char → Prop
  | nil : EscShape []
  | pair (c : Char) (rest : List Char) :
      isEscapedChar c = true → EscShape rest → EscShape ('\\' :: c :: rest)
  | plain (c : Char) (rest : List Char) :
      isEscapedChar c = false → EscShape rest → EscShape (c :: rest)

/-! ## Helper lemmas -/

theorem data_append (s t : String) : (s ++ t).data = s.data ++ t.data := rfl

theorem length_eq_data (s : String) : s.length = s.data.length := rfl

theorem reserved_imp_escaped (c : Char) (h : isReserved c = true) : isEscapedChar c = true := by
  simp [isEscapedChar, h]

theorem not_reserved_of_not_escaped (c : Char) (h : isEscapedChar c = false) :
    isReserved c = false := by
  by_contra hr
  rw [reserved_imp_escaped c (by simpa using hr)] at h
  cases h

theorem escShape_escapeChars (l : List Char) : EscShape (escapeChars l) := by
  induction l with
  | nil => exact EscShape.nil
  | cons c cs ih =>
    cases h : isEscapedChar c with
    | true => simpa [escapeChars, h] using EscShape.pair c (escapeChars cs) h ih
    | false => simpa [escapeChars, h] using EscShape.plain c (escapeChars cs) h ih

theorem backslash_escaped : isEscapedChar '\\' = true := by decide

theorem noUnescaped_of_escShape (l : List Char) (h : EscShape l) :
    noUnescapedReserved l = true := by
  induction h with
  | nil => rfl
  | pair c rest hc hrest ih => simpa [noUnescapedReserved] using ih
  | plain c rest hc hrest ih =>
    have hcb : c ≠ '\\' := by
      intro he
      rw [he, backslash_escaped] at hc
      cases hc
    simp [noUnescapedReserved, hcb, ih, not_reserved_of_not_escaped c hc]

theorem ws_not_escaped (c : Char) (h : isJsWhitespace c = true) : isEscapedChar c = false := by
  simp only [isJsWhitespace, Bool.or_eq_true, decide_eq_true_eq] at h
  rcases h with ((((h | h) | h) | h) | h) | h <;> subst h <;> decide

theorem not_ws_of_escaped (c : Char) (h : isEscapedChar c = true) : isJsWhitespace c = false := by
  by_contra hw
  rw [ws_not_escaped c (by simpa using hw)] at h
  cases h

theorem escShape_dropWhile (l : List Char) (h : EscShape l) :
    EscShape (l.dropWhile isJsWhitespace) := by
  induction h with
  | nil => exact EscShape.nil
  | pair c rest hc hrest ih =>
    have : isJsWhitespace '\\' = false := by decide
    simpa [List.dropWhile_cons, this] using EscShape.pair c rest hc hrest
  | plain c rest hc hrest ih =>
    cases hw : isJsWhitespace c with
    | true => simpa [List.dropWhile_cons, hw] using ih
    | false => simpa [List.dropWhile_cons, hw] using EscShape.plain c rest hc hrest

theorem trimRight_cons_not_ws (c : Char) (l : List Char) (h : isJsWhitespace c = false) :
    trimRight (c :: l) = c :: trimRight l := by
  cases hr : trimRight l with
  | nil => simp [trimRight, hr, h]
  | cons x xs => simp [trimRight, hr]

theorem escShape_trimRight (l : List Char) (h : EscShape l) : EscShape (trimRight l) := by
  induction h with
  | nil => exact EscShape.nil
  | pair c rest hc hrest ih =>
    rw [trimRight_cons_not_ws '\\' (c :: rest) (by decide),
      trimRight_cons_not_ws c rest (not_ws_of_escaped c hc)]
    exact EscShape.pair c (trimRight rest) hc ih
  | plain c rest hc hrest ih =>
    cases hw : isJsWhitespace c with
    | false =>
      rw [trimRight_cons_not_ws c rest hw]
      exact EscShape.plain c (trimRight rest) hc ih
    | true =>
      cases hr : trimRight rest with
      | nil => simp only [trimRight, hr, hw, if_pos]; exact EscShape.nil
      | cons x xs =>
        have : trimRight (c :: rest) = c :: trimRight rest := by simp [trimRight, hr]
        rw [this]
        exact EscShape.plain c (trimRight rest) hc ih

theorem escShape_trimChars (l : List Char) (h : EscShape l) : EscShape (trimChars l) :=
  escShape_trimRight _ (escShape_dropWhile l h)

theorem splitNl_ne_nil (l : List Char) : splitNl l ≠ [] := by
  cases l with
  | nil => simp [splitNl]
  | cons c rest =>
    by_cases h : c = '\n'
    · simp [splitNl, h]
    · cases hs : splitNl rest with
      | nil => simp [splitNl, h, hs]
      | cons p ps => simp [splitNl, h, hs]

theorem splitNl_cons_nl (l : List Char) : splitNl ('\n' :: l) = [] :: splitNl l := by
  simp [splitNl]

theorem splitNl_cons_ne (c : Char) (l : List Char) (h : c ≠ '\n') (q : List Char)
    (qs : List (List Char)) (hq : splitNl l = q :: qs) :
    splitNl (c :: l) = (c :: q) :: qs := by
  simp [splitNl, h, hq]

theorem escShape_splitNl (l : List Char) (h : EscShape l) :
    ∀ p ∈ splitNl l, EscShape p := by
  induction h with
  | nil =>
    intro p hp
    simp only [splitNl, List.mem_singleton] at hp
    subst hp
    exact EscShape.nil
  | pair c rest hc hrest ih =>
    intro p hp
    obtain ⟨q, qs, hq⟩ := List.exists_cons_of_ne_nil (splitNl_ne_nil rest)
    have hcn : c ≠ '\n' := by
      intro he
      rw [he] at hc
      cases hc
    have h1 := splitNl_cons_ne c rest hcn q qs hq
    have h2 := splitNl_cons_ne '\\' (c :: rest) (by decide) (c :: q) qs h1
    rw [h2] at hp
    rcases List.mem_cons.mp hp with hp | hp
    · subst hp
      exact EscShape.pair c q hc (ih q (by simp [hq]))
    · exact ih p (by simp [hq, hp])
  | plain c rest hc hrest ih =>
    intro p hp
    by_cases hcn : c = '\n'
    · subst hcn
      rw [splitNl_cons_nl] at hp
      rcases List.mem_cons.mp hp with hp | hp
      · subst hp; exact EscShape.nil
      · exact ih p hp
    · obtain ⟨q, qs, hq⟩ := List.exists_cons_of_ne_nil (splitNl_ne_nil rest)
      rw [splitNl_cons_ne c rest hcn q qs hq] at hp
      rcases List.mem_cons.mp hp with hp | hp
      · subst hp
        exact EscShape.plain c q hc (ih q (by simp [hq]))
      · exact ih p (by simp [hq, hp])

theorem attemptSend_fst (f : Nat → FetchOutcome) (args : SendArgs) :
    ∀ fuel attempt, (attemptSend f args fuel attempt).1 = attemptsResult f fuel attempt := by
  intro fuel
  induction fuel with
  | zero => intro attempt; rfl
  | succ k ih =>
    intro attempt
    simp only [attemptSend, attemptsResult]
    cases f attempt with
    | completed status => rfl
    | thrown =>
      cases k with
      | zero => rfl
      | succ m => simpa using ih (attempt + 1)

theorem attemptSend_len_le (f : Nat → FetchOutcome) (args : SendArgs) :
    ∀ fuel attempt, (attemptSend f args fuel attempt).2.length ≤ fuel := by
  intro fuel
  induction fuel with
  | zero => intro attempt; simp [attemptSend]
  | succ k ih =>
    intro attempt
    simp only [attemptSend]
    cases f attempt with
    | completed status => simp
    | thrown =>
      cases k with
      | zero => simp
      | succ m =>
        simp only [Nat.zero_lt_succ, if_pos, List.length_cons]
        exact Nat.succ_le_succ (ih (attempt + 1))

theorem attemptSend_mem (f : Nat → FetchOutcome) (args : SendArgs) :
    ∀ fuel attempt e, e ∈ (attemptSend f args fuel attempt).2 → e = Effect.sendMessage args := by
  intro fuel
  induction fuel with
  | zero => intro attempt e he; simp [attemptSend] at he
  | succ k ih =>
    intro attempt e he
    simp only [attemptSend] at he
    cases hf : f attempt with
    | completed status => rw [hf] at he; simpa using he
    | thrown =>
      rw [hf] at he
      cases k with
      | zero => simpa using he
      | succ m =>
        simp only [Nat.zero_lt_succ, if_pos, List.mem_cons] at he
        rcases he with he | he
        · exact he
        · exact ih (attempt + 1) e he

theorem attemptSend_self_mem (f : Nat → FetchOutcome) (args : SendArgs) :
    ∀ fuel attempt, Effect.sendMessage args ∈ (attemptSend f args (fuel + 1) attempt).2 := by
  intro fuel attempt
  simp only [attemptSend]
  cases f attempt with
  | completed status => simp
  | thrown =>
    cases fuel with
    | zero => simp
    | succ m => simp

theorem deliverOne_fst (f : Nat → FetchOutcome) (args : SendArgs) :
    (deliverOne f args).1 = deliverySuccess f :=
  attemptSend_fst f args RETRIES 0

theorem processBatch_fst (f2 : Nat → Nat → FetchOutcome) (text : String) :
    ∀ (l : List Registration) (start : Nat),
      (processBatch f2 text start l).1 = succCount f2 start l := by
  intro l
  induction l with
  | nil => intro start; rfl
  | cons r rest ih =>
    intro start
    simp [processBatch, succCount, deliverOne_fst, ih (start + 1)]

theorem succCount_le (f2 : Nat → Nat → FetchOutcome) :
    ∀ (l : List Registration) (start : Nat), succCount f2 start l ≤ l.length := by
  intro l
  induction l with
  | nil => intro start; simp [succCount]
  | cons r rest ih =>
    intro start
    simp only [succCount, List.length_cons]
    have := ih (start + 1)
    split <;> omega

theorem processBatch_append (f2 : Nat → Nat → FetchOutcome) (text : String) :
    ∀ (l1 l2 : List Registration) (start : Nat),
      processBatch f2 text start (l1 ++ l2) =
        ((processBatch f2 text start l1).1 + (processBatch f2 text (start + l1.length) l2).1,
          (processBatch f2 text start l1).2 ++ (processBatch f2 text (start + l1.length) l2).2) := by
  intro l1
  induction l1 with
  | nil => intro l2 start; simp [processBatch]
  | cons r rest ih =>
    intro l2 start
    have hidx : start + (rest.length + 1) = start + 1 + rest.length := by omega
    simp only [List.cons_append, processBatch, List.length_cons, hidx, List.append_eq]
    rw [ih l2 (start + 1)]
    simp only [Prod.mk.injEq]
    constructor
    · omega
    · simp [List.append_assoc]

theorem processBatch_effects (f2 : Nat → Nat → FetchOutcome) (text : String) :
    ∀ (l : List Registration) (start : Nat) (e : Effect),
      e ∈ (processBatch f2 text start l).2 →
        ∃ r ∈ l, e = Effect.sendMessage (registrationArgs text r) := by
  intro l
  induction l with
  | nil => intro start e he; simp [processBatch] at he
  | cons r rest ih =>
    intro start e he
    simp only [processBatch, List.mem_append] at he
    rcases he with he | he
    · exact ⟨r, by simp, attemptSend_mem (f2 start) (registrationArgs text r) RETRIES 0 e he⟩
    · obtain ⟨r2, hr2, he2⟩ := ih (start + 1) e he
      exact ⟨r2, by simp [hr2], he2⟩

theorem processBatch_reg_mem (f2 : Nat → Nat → FetchOutcome) (text : String) :
    ∀ (l : List Registration) (start : Nat) (r : Registration), r ∈ l →
      Effect.sendMessage (registrationArgs text r) ∈ (processBatch f2 text start l).2 := by
  intro l
  induction l with
  | nil => intro start r hr; simp at hr
  | cons x rest ih =>
    intro start r hr
    simp only [processBatch, List.mem_append]
    rcases List.mem_cons.mp hr with hr | hr
    · subst hr
      exact Or.inl (attemptSend_self_mem (f2 start) (registrationArgs text r) 2 0)
    · exact Or.inr (ih (start + 1) r hr)

theorem processBatches_effects (f2 : Nat → Nat → FetchOutcome) (text : String) :
    ∀ (bs : List (List Registration)) (start : Nat) (e : Effect),
      e ∈ (processBatches f2 text start bs).2 → ∃ a, e = Effect.sendMessage a := by
  intro bs
  induction bs with
  | nil => intro start e he; simp [processBatches] at he
  | cons b rest ih =>
    intro start e he
    simp only [processBatches, List.mem_append] at he
    rcases he with he | he
    · obtain ⟨r, _, he2⟩ := processBatch_effects f2 text b start e he
      exact ⟨registrationArgs text r, he2⟩
    · exact ih (start + b.length) e he

theorem processBatches_blocks (f2 : Nat → Nat → FetchOutcome) (text : String) :
    ∀ (bs : List (List Registration)) (start : Nat),
      (processBatches f2 text start bs).2 = (batchBlocks f2 text start bs).flatten ∧
        (batchBlocks f2 text start bs).length = bs.length := by
  intro bs
  induction bs with
  | nil => intro start; simp [processBatches, batchBlocks]
  | cons b rest ih =>
    intro start
    simp [processBatches, batchBlocks, (ih (start + b.length)).1, (ih (start + b.length)).2]

/-! ### chunkList lemmas -/

theorem chunkListAux_nil {α : Type} (n fuel : Nat) : chunkListAux n fuel ([] : List α) = [] := by
  cases fuel <;> rfl

theorem chunkListAux_fuel {α : Type} (n : Nat) (hn : 0 < n) :
    ∀ (fuel1 fuel2 : Nat) (l : List α), l.length ≤ fuel1 → l.length ≤ fuel2 →
      chunkListAux n fuel1 l = chunkListAux n fuel2 l := by
  intro fuel1
  induction fuel1 with
  | zero =>
    intro fuel2 l h1 h2
    have : l = [] := List.eq_nil_of_length_eq_zero (Nat.le_zero.mp h1)
    subst this
    rw [chunkListAux_nil, chunkListAux_nil]
  | succ k ih =>
    intro fuel2 l h1 h2
    cases l with
    | nil => rw [chunkListAux_nil, chunkListAux_nil]
    | cons x xs =>
      cases fuel2 with
      | zero => simp at h2
      | succ m =>
        show (x :: xs).take n :: chunkListAux n k ((x :: xs).drop n) =
          (x :: xs).take n :: chunkListAux n m ((x :: xs).drop n)
        congr 1
        apply ih
        · simp only [List.length_drop, List.length_cons] at *
          omega
        · simp only [List.length_drop, List.length_cons] at *
          omega

theorem chunkList_nil {α : Type} (n : Nat) : chunkList n ([] : List α) = [] := by
  simp [chunkList, chunkListAux_nil]

theorem chunkList_cons {α : Type} (n : Nat) (hn : 0 < n) (x : α) (xs : List α) :
    chunkList n (x :: xs) = (x :: xs).take n :: chunkList n ((x :: xs).drop n) := by
  show chunkListAux n (xs.length + 1) (x :: xs) = _
  have h1 : chunkListAux n (xs.length + 1) (x :: xs) =
      (x :: xs).take n :: chunkListAux n xs.length ((x :: xs).drop n) := rfl
  rw [h1, chunkList]
  congr 1
  apply chunkListAux_fuel n hn
  · simp only [List.length_drop, List.length_cons]
    omega
  · exact Nat.le_refl _

/-- Strong-induction principle matching the chunking recursion. -/
theorem chunkList_rec {α : Type} (n : Nat) (hn : 0 < n) (P : List α → Prop) (h0 : P [])
    (hstep : ∀ x xs, P ((x :: xs).drop n) → P (x :: xs)) : ∀ l, P l := by
  have H : ∀ (k : Nat) (l : List α), l.length ≤ k → P l := by
    intro k
    induction k with
    | zero =>
      intro l hl
      have : l = [] := List.eq_nil_of_length_eq_zero (by omega)
      subst this
      exact h0
    | succ m ihm =>
      intro l hl
      cases l with
      | nil => exact h0
      | cons x xs =>
        apply hstep
        apply ihm
        simp only [List.length_drop, List.length_cons] at *
        omega
  intro l
  exact H l.length l (Nat.le_refl _)

theorem chunkList_flatten {α : Type} (n : Nat) (hn : 0 < n) :
    ∀ l : List α, (chunkList n l).flatten = l := by
  apply chunkList_rec n hn
  · simp [chunkList_nil]
  · intro x xs ih
    rw [chunkList_cons n hn, List.flatten_cons, ih, List.take_append_drop]

theorem chunkList_mem {α : Type} (n : Nat) (hn : 0 < n) :
    ∀ l : List α, ∀ b ∈ chunkList n l, b ≠ [] ∧ b.length ≤ n := by
  apply chunkList_rec n hn
  · simp [chunkList_nil]
  · intro x xs ih b hb
    rw [chunkList_cons n hn] at hb
    rcases List.mem_cons.mp hb with hb | hb
    · subst hb
      constructor
      · cases n with
        | zero => omega
        | succ m => simp
      · simp only [List.length_take, List.length_cons]
        omega
    · exact ih b hb

theorem chunkList_dropLast (n : Nat) (hn : 0 < n) :
    ∀ l : List Registration, ∀ b ∈ (chunkList n l).dropLast, b.length = n := by
  apply chunkList_rec n hn
  · simp [chunkList_nil]
  · intro x xs ih b hb
    rw [chunkList_cons n hn] at hb
    cases hr : chunkList n ((x :: xs).drop n) with
    | nil => rw [hr] at hb; simp at hb
    | cons y ys =>
      rw [hr] at hb
      have hblock : (x :: xs).drop n ≠ [] := by
        intro hd
        rw [hd, chunkList_nil] at hr
        cases hr
      have hlen : n < (x :: xs).length := by
        by_contra hcon
        simp only [List.length_cons] at hcon
        exact hblock (List.drop_eq_nil_of_le (by simp only [List.length_cons]; omega))
      have : (x :: xs).take n :: y :: ys = [(x :: xs).take n] ++ (y :: ys) := by simp
      rw [this, List.dropLast_append_cons] at hb
      rcases List.mem_append.mp hb with hb | hb
    -- head block: full size
      · simp only [List.dropLast_single, List.mem_singleton] at hb
        subst hb
        simp only [List.length_take, List.length_cons]
        simp only [List.length_cons] at hlen
        omega
      · rw [← hr] at hb
        exact ih b hb

theorem processBatches_chunkList (f2 : Nat → Nat → FetchOutcome) (text : String) :
    ∀ (l : List Registration) (start : Nat),
      processBatches f2 text start (chunkList BATCH_SIZE l) = processBatch f2 text start l := by
  apply chunkList_rec BATCH_SIZE (by decide) (fun l => ∀ start,
    processBatches f2 text start (chunkList BATCH_SIZE l) = processBatch f2 text start l)
  · intro start
    rw [chunkList_nil]
    rfl
  · intro x xs ih start
    rw [chunkList_cons BATCH_SIZE (by decide)]
    simp only [processBatches, ih (start + ((x :: xs).take BATCH_SIZE).length)]
    have hsplit := processBatch_append f2 text ((x :: xs).take BATCH_SIZE)
      ((x :: xs).drop BATCH_SIZE) start
    rw [List.take_append_drop] at hsplit
    rw [hsplit]

theorem dispatchAll_fst (f2 : Nat → Nat → FetchOutcome) (text : String)
    (regs : List Registration) : (dispatchAll f2 text regs).1 = succCount f2 0 regs := by
  rw [dispatchAll, processBatches_chunkList, processBatch_fst]

theorem dispatchAll_effects (f2 : Nat → Nat → FetchOutcome) (text : String)
    (regs : List Registration) (e : Effect) (he : e ∈ (dispatchAll f2 text regs).2) :
    ∃ r ∈ regs, e = Effect.sendMessage (registrationArgs text r) := by
  rw [dispatchAll, processBatches_chunkList] at he
  exact processBatch_effects f2 text regs 0 e he

theorem dispatchAll_nil (f2 : Nat → Nat → FetchOutcome) (text : String) :
    dispatchAll f2 text [] = (0, []) := by
  rw [dispatchAll, chunkList_nil]
  rfl

/-! ### Template lemmas -/

theorem append_data_ne_nil (s t : String) (h : s.data ≠ []) : (s ++ t).data ≠ [] := by
  rw [data_append]
  intro he
  exact h (List.append_eq_nil.mp he).1

theorem buildText_data_ne_nil (type proposalId url daoName daoUrl proposalTitle desc : String)
    (w : Option String) (h : type ∈ validTypes) :
    (buildText type proposalId url daoName daoUrl proposalTitle desc w).data ≠ [] := by
  simp only [validTypes, List.mem_cons, List.mem_singleton, List.not_mem_nil, or_false] at h
  rcases h with h | h | h | h <;> subst h <;>
    simp only [buildText, String.reduceEq, reduceIte] <;>
    · intro he
      simp only [data_append, List.append_eq_nil] at he
      simp at he

theorem buildText_invalid (type proposalId url daoName daoUrl proposalTitle desc : String)
    (w : Option String) (h : type ∉ validTypes) :
    buildText type proposalId url daoName daoUrl proposalTitle desc w = "" := by
  simp only [validTypes, List.mem_cons, List.mem_singleton, List.not_mem_nil, or_false,
    not_or] at h
  obtain ⟨h1, h2, h3, h4⟩ := h
  simp [buildText, h1, h2, h3, h4]

/-! ### notify path lemmas -/

theorem notify_missing_chain (rm : String → String) (db : String → String → List Registration)
    (f2 : Nat → Nat → FetchOutcome) (env : Env) (req : NotifyRequest)
    (h : strTruthy req.chainId = false) :
    notify rm db f2 env req = (Resp.mk 400 (RespBody.error "Missing `chainId`."), []) := by
  rw [notify, if_pos h]

theorem notify_missing_dao (rm : String → String) (db : String → String → List Registration)
    (f2 : Nat → Nat → FetchOutcome) (env : Env) (req : NotifyRequest)
    (h1 : strTruthy req.chainId = true) (h : strTruthy req.dao = false) :
    notify rm db f2 env req = (Resp.mk 400 (RespBody.error "Missing `dao`."), []) := by
  rw [notify, if_neg (by simp [h1]), if_pos h]

theorem notify_bad_key (rm : String → String) (db : String → String → List Registration)
    (f2 : Nat → Nat → FetchOutcome) (env : Env) (req : NotifyRequest)
    (h1 : strTruthy req.chainId = true) (h2 : strTruthy req.dao = true)
    (h3 : req.apiKey ≠ some env.NOTIFY_API_KEY) :
    notify rm db f2 env req = (Resp.mk 401 (RespBody.error "Invalid API key."), []) := by
  rw [notify, if_neg (by simp [h1]), if_neg (by simp [h2]), if_pos h3]

theorem notify_bad_type (rm : String → String) (db : String → String → List Registration)
    (f2 : Nat → Nat → FetchOutcome) (env : Env) (req : NotifyRequest)
    (h1 : strTruthy req.chainId = true) (h2 : strTruthy req.dao = true)
    (h3 : req.apiKey = some env.NOTIFY_API_KEY) (h4 : (requestText rm req).data = []) :
    notify rm db f2 env req = (Resp.mk 400 (RespBody.error "Invalid notification type."), []) := by
  rw [notify, if_neg (by simp [h1]), if_neg (by simp [h2]), if_neg (by simp [h3]), if_pos h4]

theorem notify_valid (rm : String → String) (db : String → String → List Registration)
    (f2 : Nat → Nat → FetchOutcome) (env : Env) (req : NotifyRequest)
    (h1 : strTruthy req.chainId = true) (h2 : strTruthy req.dao = true)
    (h3 : req.apiKey = some env.NOTIFY_API_KEY) (h4 : (requestText rm req).data ≠ []) :
    notify rm db f2 env req =
      (Resp.mk 200 (RespBody.ok
          (dispatchAll f2 (requestText rm req) (db (req.chainId.getD "") (req.dao.getD ""))).1),
        Effect.dbQuery SELECT_SQL (req.chainId.getD "") (req.dao.getD "") ::
          (dispatchAll f2 (requestText rm req) (db (req.chainId.getD "") (req.dao.getD ""))).2) := by
  rw [notify, if_neg (by simp [h1]), if_neg (by simp [h2]), if_neg (by simp [h3]), if_neg h4]

theorem bool_not_false (b : Bool) (h : ¬ b = false) : b = true := by
  cases b
  · exact absurd rfl h
  · rfl

theorem notify_effects_cases (rm : String → String) (db : String → String → List Registration)
    (f2 : Nat → Nat → FetchOutcome) (env : Env) (req : NotifyRequest) :
    ∀ e ∈ (notify rm db f2 env req).2,
      e = Effect.dbQuery SELECT_SQL (req.chainId.getD "") (req.dao.getD "") ∨
        ∃ r ∈ db (req.chainId.getD "") (req.dao.getD ""),
          e = Effect.sendMessage (registrationArgs (requestText rm req) r) := by
  intro e he
  by_cases h1 : strTruthy req.chainId = false
  · rw [notify_missing_chain rm db f2 env req h1] at he
    simp at he
  · have h1t := bool_not_false _ h1
    by_cases h2 : strTruthy req.dao = false
    · rw [notify_missing_dao rm db f2 env req h1t h2] at he
      simp at he
    · have h2t := bool_not_false _ h2
      by_cases h3 : req.apiKey = some env.NOTIFY_API_KEY
      · by_cases h4 : (requestText rm req).data = []
        · rw [notify_bad_type rm db f2 env req h1t h2t h3 h4] at he
          simp at he
        · rw [notify_valid rm db f2 env req h1t h2t h3 h4] at he
          rcases List.mem_cons.mp he with he | he
          · exact Or.inl he
          · exact Or.inr (dispatchAll_effects f2 _ _ e he)
      · rw [notify_bad_key rm db f2 env req h1t h2t h3] at he
        simp at he

theorem processBatch_first_success (f2 : Nat → Nat → FetchOutcome) (text : String)
    (hf : ∀ i, f2 i 0 ≠ FetchOutcome.thrown) :
    ∀ (l : List Registration) (start : Nat),
      (processBatch f2 text start l).1 = l.length ∧
        (processBatch f2 text start l).2.length = l.length := by
  intro l
  induction l with
  | nil => intro start; simp [processBatch]
  | cons r rest ih =>
    intro start
    cases hq : f2 start 0 with
    | thrown => exact absurd hq (hf start)
    | completed st =>
      have hd : deliverOne (f2 start) (registrationArgs text r) =
          (true, [Effect.sendMessage (registrationArgs text r)]) := by
        simp [deliverOne, RETRIES, attemptSend, hq]
      simp [processBatch, hd, (ih (start + 1)).1, (ih (start + 1)).2, Nat.add_comm]

theorem chunkList_len25 (regs : List Registration) (hlen : regs.length = 25) :
    (chunkList BATCH_SIZE regs).map List.length = [10, 10, 5] := by
  cases regs with
  | nil => simp at hlen
  | cons x xs =>
    have l1 : (x :: xs).length = 25 := hlen
    rw [chunkList_cons BATCH_SIZE (by decide)]
    obtain ⟨y, ys, hy⟩ : ∃ y ys, (x :: xs).drop BATCH_SIZE = y :: ys := by
      apply List.exists_cons_of_ne_nil
      intro hc
      have := congrArg List.length hc
      simp only [List.length_drop, l1, List.length_nil] at this
      exact absurd this (by decide)
    have l2 : (y :: ys).length = 15 := by
      rw [← hy]
      rw [List.length_drop, l1]
      decide
    rw [hy, chunkList_cons BATCH_SIZE (by decide)]
    obtain ⟨z, zs, hz⟩ : ∃ z zs, (y :: ys).drop BATCH_SIZE = z :: zs := by
      apply List.exists_cons_of_ne_nil
      intro hc
      have := congrArg List.length hc
      simp only [List.length_drop, l2, List.length_nil] at this
      exact absurd this (by decide)
    have l3 : (z :: zs).length = 5 := by
      rw [← hz]
      rw [List.length_drop, l2]
      decide
    rw [hz, chunkList_cons BATCH_SIZE (by decide)]
    have hnil : (z :: zs).drop BATCH_SIZE = [] := List.drop_eq_nil_of_le (by rw [l3]; decide)
    rw [hnil, chunkList_nil]
    simp only [List.map_cons, List.map_nil, List.length_take, l1, l2, l3]
    decide

theorem roundFloat64Int_exact (v : Int) (hv : v.natAbs ≤ 2 ^ 53) : roundFloat64Int v = v := by
  by_cases h : 0 ≤ v
  · rw [roundFloat64Int, if_pos h, roundFloat64Nat, if_pos (by omega)]
    omega
  · rw [roundFloat64Int, if_neg h, roundFloat64Nat, if_pos (by omega)]
    omega

theorem parse_data_ne_nil (s : String) (v : Int) (h : parseDecInt s = some v) : s.data ≠ [] := by
  intro he
  have hnone : parseDecInt s = none := by
    unfold parseDecInt
    rw [he]
    rfl
  rw [hnone] at h
  cases h

theorem jsNumber_exact (s : String) (v : Int) (hs : parseDecInt s = some v)
    (hv : v.natAbs ≤ 2 ^ 53) : jsNumber s = JsNum.int v := by
  rw [jsNumber, if_neg (parse_data_ne_nil s v hs), hs]
  show JsNum.int (roundFloat64Int v) = JsNum.int v
  rw [roundFloat64Int_exact v hv]

/-! ## Claims -/

/-- Claim C1, corrected.  In every template the fields daoName,
proposalTitle, the sanitized description, proposalId and winningChoice
are composed through escapeMarkdownV2, whose output never contains an
unescaped reserved MarkdownV2 character; the description additionally
passes through trim, the newline split and the quote reflow, which keep
every resulting quoted line free of unescaped reserved characters (the
inserted quote markers are template scaffolding).  The url and daoUrl
fields, however, are interpolated raw, as the third conjunct exhibits
for the proposal_created template, so the part of the original claim
that listed them among the escaped fields is false (see the
counterexample). -/
theorem C1_escaping_amended :
    (∀ s : String, noUnescapedReserved (escapeMarkdownV2 s).data = true) ∧
    (∀ s : String, ∃ parts : List (List Char),
      (quoteReflow (escapeMarkdownV2 s)).data = List.intercalate ['\n', '>'] parts ∧
        ∀ p ∈ parts, noUnescapedReserved p = true) ∧
    (∀ proposalId url daoName daoUrl proposalTitle desc : String,
      buildText "proposal_created" proposalId url daoName daoUrl proposalTitle desc none =
        "_[Proposal " ++ escapeMarkdownV2 proposalId ++ "](" ++ url ++
          ") is open for voting in [" ++ escapeMarkdownV2 daoName ++ "](" ++ daoUrl ++
          ")\\._\n\n>*" ++ escapeMarkdownV2 proposalTitle ++ "*\n>\n>" ++
          quoteReflow (escapeMarkdownV2 desc)) := by
  refine ⟨?_, ?_, ?_⟩
  · intro s
    exact noUnescaped_of_escShape _ (escShape_escapeChars s.data)
  · intro s
    refine ⟨splitNl (trimChars (escapeChars s.data)), rfl, ?_⟩
    intro p hp
    exact noUnescaped_of_escShape p
      (escShape_splitNl _ (escShape_trimChars _ (escShape_escapeChars s.data)) p hp)
  · intro proposalId url daoName daoUrl proposalTitle desc
    rfl

/-- Claim C1, counterexample to the original claim: with every field
empty except url equal to an exclamation mark, the rendered
proposal_created message contains an unescaped reserved character that
can only originate from the url field (with the url empty there is
none), so the interpolated url is not escaped. -/
theorem C1_url_counterexample :
    isReserved '!' = true ∧
    hasUnescaped '!' (buildText "proposal_created" "" "!" "" "" "" "" none).data = true ∧
    hasUnescaped '!' (buildText "proposal_created" "" "" "" "" "" "" none).data = false := by
  decide

/-- Claim C1, witness: the escaping invariant evaluated at a concrete
string containing characters from the reserved set. -/
theorem C1_escaping_witness :
    noUnescapedReserved (escapeMarkdownV2 "dao_name*[!].").data = true :=
  C1_escaping_amended.1 "dao_name*[!]."

/-- Claim C2, confirmed.  Past the presence, api-key and type checks,
notify responds 200 with success true and a count equal to the number
of destinations whose delivery succeeded; the count never exceeds the
number of registrations returned by the lookup; an empty registration
set yields count 0 with no delivery call (the trace holds only the
SELECT); and the response shape does not depend on the delivery oracle,
so it reports success even when every delivery fails. -/
theorem C2_success_response (rm : String → String) (db : String → String → List Registration)
    (f2 : Nat → Nat → FetchOutcome) (env : Env) (req : NotifyRequest)
    (h1 : strTruthy req.chainId = true) (h2 : strTruthy req.dao = true)
    (h3 : req.apiKey = some env.NOTIFY_API_KEY)
    (h4 : req.type.getD "proposal_created" ∈ validTypes) :
    (notify rm db f2 env req).1 =
        Resp.mk 200 (RespBody.ok (succCount f2 0 (db (req.chainId.getD "") (req.dao.getD "")))) ∧
      succCount f2 0 (db (req.chainId.getD "") (req.dao.getD "")) ≤
        (db (req.chainId.getD "") (req.dao.getD "")).length ∧
      (db (req.chainId.getD "") (req.dao.getD "") = [] →
        notify rm db f2 env req =
          (Resp.mk 200 (RespBody.ok 0),
            [Effect.dbQuery SELECT_SQL (req.chainId.getD "") (req.dao.getD "")])) := by
  have htext : (requestText rm req).data ≠ [] := by
    simp only [requestText]
    exact buildText_data_ne_nil _ _ _ _ _ _ _ _ h4
  have hv := notify_valid rm db f2 env req h1 h2 h3 htext
  refine ⟨?_, succCount_le f2 _ 0, ?_⟩
  · rw [hv]
    simp [dispatchAll_fst]
  · intro hreg
    rw [hv, hreg, dispatchAll_nil]

/-- Claim C2, witness: a valid request with one registration and a
delivery oracle that always resolves yields 200 with count 1. -/
theorem C2_success_response_witness :
    (notify exId exDb1 exOkOracle exEnv exReq).1 = Resp.mk 200 (RespBody.ok 1) := by
  have h := C2_success_response exId exDb1 exOkOracle exEnv exReq
    (by decide) (by decide) (by decide) (by decide)
  exact h.1.trans (by decide)

/-- Claim C3, confirmed.  Per destination: at most RETRIES fetch calls
are made; a first-attempt success ends the attempts after exactly one
call; two rejections followed by a success still count as a success
with three calls; three rejections yield a failure with three calls;
every registration of a batch receives at least one call regardless of
the other destinations, so an exhausted destination does not abort its
batch; and when every destination succeeds on its first attempt the
count equals N and exactly N fetch calls occur in the whole dispatch. -/
theorem C3_retry_budget :
    (∀ (f : Nat → FetchOutcome) (args : SendArgs), (deliverOne f args).2.length ≤ RETRIES) ∧
    (∀ (f : Nat → FetchOutcome) (args : SendArgs) (status : Nat),
      f 0 = FetchOutcome.completed status →
        deliverOne f args = (true, [Effect.sendMessage args])) ∧
    (∀ (f : Nat → FetchOutcome) (args : SendArgs) (status : Nat),
      f 0 = FetchOutcome.thrown → f 1 = FetchOutcome.thrown →
        f 2 = FetchOutcome.completed status →
        deliverOne f args =
          (true, [Effect.sendMessage args, Effect.sendMessage args, Effect.sendMessage args])) ∧
    (∀ (f : Nat → FetchOutcome) (args : SendArgs),
      f 0 = FetchOutcome.thrown → f 1 = FetchOutcome.thrown → f 2 = FetchOutcome.thrown →
        deliverOne f args =
          (false, [Effect.sendMessage args, Effect.sendMessage args, Effect.sendMessage args])) ∧
    (∀ (f2 : Nat → Nat → FetchOutcome) (text : String) (start : Nat)
        (regs : List Registration), ∀ r ∈ regs,
      Effect.sendMessage (registrationArgs text r) ∈ (processBatch f2 text start regs).2) ∧
    (∀ (f2 : Nat → Nat → FetchOutcome) (text : String) (regs : List Registration),
      (∀ i, f2 i 0 ≠ FetchOutcome.thrown) →
        (dispatchAll f2 text regs).1 = regs.length ∧
          (dispatchAll f2 text regs).2.length = regs.length) := by
  refine ⟨?_, ?_, ?_, ?_, ?_, ?_⟩
  · intro f args
    exact attemptSend_len_le f args RETRIES 0
  · intro f args status h
    simp [deliverOne, RETRIES, attemptSend, h]
  · intro f args status h0 h1 h2
    simp [deliverOne, RETRIES, attemptSend, h0, h1, h2]
  · intro f args h0 h1 h2
    simp [deliverOne, RETRIES, attemptSend, h0, h1, h2]
  · intro f2 text start regs r hr
    exact processBatch_reg_mem f2 text regs start r hr
  · intro f2 text regs hf
    rw [dispatchAll, processBatches_chunkList]
    exact processBatch_first_success f2 text hf regs 0

/-- Claim C3, witness: a resolving oracle delivers in one call, an
always-throwing oracle makes exactly three calls and fails, and a
one-registration dispatch with a resolving oracle counts 1. -/
theorem C3_retry_budget_witness :
    deliverOne (fun _ => FetchOutcome.completed 200) (SendArgs.mk (JsNum.int 1) none "m") =
        (true, [Effect.sendMessage (SendArgs.mk (JsNum.int 1) none "m")]) ∧
      deliverOne (fun _ => FetchOutcome.thrown) (SendArgs.mk (JsNum.int 1) none "m") =
        (false, [Effect.sendMessage (SendArgs.mk (JsNum.int 1) none "m"),
          Effect.sendMessage (SendArgs.mk (JsNum.int 1) none "m"),
          Effect.sendMessage (SendArgs.mk (JsNum.int 1) none "m")]) ∧
      (dispatchAll exOkOracle "m" (exDb1 "c" "d")).1 = 1 := by
  have h := C3_retry_budget
  refine ⟨h.2.1 _ _ 200 rfl, h.2.2.2.1 _ _ rfl rfl rfl, ?_⟩
  have h6 := h.2.2.2.2.2 exOkOracle "m" (exDb1 "c" "d") (fun i => by simp [exOkOracle])
  rw [h6.1]
  decide

/-- Claim C4, confirmed.  The dispatcher partitions the registrations,
in lookup order, into consecutive chunks: flattening the chunks gives
back the list, every chunk is nonempty with at most BATCH_SIZE
elements, every chunk except possibly the last has exactly BATCH_SIZE
elements, a 25-element list yields chunk sizes 10, 10, 5, and the
effect trace of the dispatch is the concatenation of the per-batch
effect blocks in batch order (each batch is awaited before the next
starts). -/
theorem C4_batching :
    (∀ regs : List Registration, (chunkList BATCH_SIZE regs).flatten = regs) ∧
    (∀ regs : List Registration, ∀ b ∈ chunkList BATCH_SIZE regs,
      b ≠ [] ∧ b.length ≤ BATCH_SIZE) ∧
    (∀ regs : List Registration, ∀ b ∈ (chunkList BATCH_SIZE regs).dropLast,
      b.length = BATCH_SIZE) ∧
    (∀ regs : List Registration, regs.length = 25 →
      (chunkList BATCH_SIZE regs).map List.length = [10, 10, 5]) ∧
    (∀ (f2 : Nat → Nat → FetchOutcome) (text : String) (regs : List Registration),
      (dispatchAll f2 text regs).2 =
          (batchBlocks f2 text 0 (chunkList BATCH_SIZE regs)).flatten ∧
        (batchBlocks f2 text 0 (chunkList BATCH_SIZE regs)).length =
          (chunkList BATCH_SIZE regs).length) := by
  refine ⟨chunkList_flatten BATCH_SIZE (by decide), chunkList_mem BATCH_SIZE (by decide),
    chunkList_dropLast BATCH_SIZE (by decide), chunkList_len25, ?_⟩
  intro f2 text regs
  exact ⟨(processBatches_blocks f2 text (chunkList BATCH_SIZE regs) 0).1,
    (processBatches_blocks f2 text (chunkList BATCH_SIZE regs) 0).2⟩

/-- Claim C4, witness: the chunk sizes of a concrete 25-registration
list. -/
theorem C4_batching_witness :
    (chunkList BATCH_SIZE (List.replicate 25 (Registration.mk "1" none))).map List.length =
      [10, 10, 5] := by
  have h := C4_batching
  exact h.2.2.2.1 (List.replicate 25 (Registration.mk "1" none)) (by decide)

/-- Claim C5, corrected.  The amended statement: for every request that
passes the chainId and dao presence checks AND the api-key check, an
effective event type (after the proposal_created default) outside the
closed set yields 400 with error Invalid notification type and an empty
effect trace, hence no registration-store query and no delivery call.
The original claim quantified over every request with an invalid type,
but the api-key check runs before the type check, so a request with an
invalid type and a wrong key gets 401 instead (see the
counterexample). -/
theorem C5_invalid_type_amended (rm : String → String)
    (db : String → String → List Registration) (f2 : Nat → Nat → FetchOutcome) (env : Env)
    (req : NotifyRequest) (h1 : strTruthy req.chainId = true) (h2 : strTruthy req.dao = true)
    (h3 : req.apiKey = some env.NOTIFY_API_KEY)
    (h4 : req.type.getD "proposal_created" ∉ validTypes) :
    notify rm db f2 env req = (Resp.mk 400 (RespBody.error "Invalid notification type."), []) := by
  apply notify_bad_type rm db f2 env req h1 h2 h3
  simp only [requestText]
  rw [buildText_invalid _ _ _ _ _ _ _ _ h4]

/-- Claim C5, counterexample to the original claim: a request whose
effective type is outside the closed set but whose api key is also
wrong is answered 401, not 400 Invalid notification type. -/
theorem C5_invalid_type_counterexample :
    (exReqBadKey.type.getD "proposal_created") ∉ validTypes ∧
      notify exId exDb1 exOkOracle exEnv exReqBadKey =
        (Resp.mk 401 (RespBody.error "Invalid API key."), []) ∧
      (notify exId exDb1 exOkOracle exEnv exReqBadKey).1 ≠
        Resp.mk 400 (RespBody.error "Invalid notification type.") := by
  decide

/-- Claim C5, witness: a well-authenticated request with an unknown type
gets the 400 Invalid notification type response and an empty trace. -/
theorem C5_invalid_type_witness :
    notify exId exDb1 exOkOracle exEnv exReqBadType =
      (Resp.mk 400 (RespBody.error "Invalid notification type."), []) :=
  C5_invalid_type_amended exId exDb1 exOkOracle exEnv exReqBadType
    (by decide) (by decide) (by decide) (by decide)

/-- Claim C6, confirmed.  With chainId and dao present, a request whose
apiKey differs from the configured secret is answered 401 Invalid API
key with an empty effect trace: no registration-store query and no
delivery call happen, whatever registrations the store holds (the
store is universally quantified).  The request model is the parsed
body, so the check runs after payload parsing. -/
theorem C6_unauthorized (rm : String → String) (db : String → String → List Registration)
    (f2 : Nat → Nat → FetchOutcome) (env : Env) (req : NotifyRequest)
    (h1 : strTruthy req.chainId = true) (h2 : strTruthy req.dao = true)
    (h3 : req.apiKey ≠ some env.NOTIFY_API_KEY) :
    notify rm db f2 env req = (Resp.mk 401 (RespBody.error "Invalid API key."), []) :=
  notify_bad_key rm db f2 env req h1 h2 h3

/-- Claim C6, witness: concrete wrong-key request with a nonempty
registration store. -/
theorem C6_unauthorized_witness :
    notify exId exDb1 exOkOracle exEnv exReqBadKey =
      (Resp.mk 401 (RespBody.error "Invalid API key."), []) :=
  C6_unauthorized exId exDb1 exOkOracle exEnv exReqBadKey (by decide) (by decide) (by decide)

/-- Claim C7, confirmed.  The description interpolated into the message
is the markdown-stripped text truncated at MAX_DESCRIPTION_LENGTH: when
the stripped text exceeds 500 units the used description is exactly its
first 500 units followed by the 3-character marker (503 units total),
when it does not exceed 500 units it is used unchanged, and truncation
is applied to the output of the stripper, never to the raw input (the
stripper rm is universally quantified and only its output is sliced).
Every sendMessage call of notify carries the text rendered from this
sanitized description. -/
theorem C7_truncation (rm : String → String) (raw : String) :
    (MAX_DESCRIPTION_LENGTH < (rm raw).length →
      (sanitizeDescription rm raw).data =
          (rm raw).data.take MAX_DESCRIPTION_LENGTH ++ "...".data ∧
        (sanitizeDescription rm raw).length = MAX_DESCRIPTION_LENGTH + 3) ∧
    ((rm raw).length ≤ MAX_DESCRIPTION_LENGTH → sanitizeDescription rm raw = rm raw) ∧
    (∀ (db : String → String → List Registration) (f2 : Nat → Nat → FetchOutcome) (env : Env)
        (req : NotifyRequest) (a : SendArgs),
      Effect.sendMessage a ∈ (notify rm db f2 env req).2 → a.text = requestText rm req) := by
  refine ⟨?_, ?_, ?_⟩
  · intro h
    rw [sanitizeDescription, if_pos h]
    refine ⟨rfl, ?_⟩
    rw [length_eq_data]
    show ((rm raw).data.take MAX_DESCRIPTION_LENGTH ++ "...".data).length = _
    rw [List.length_append, List.length_take]
    have h1 : ("..." : String).data.length = 3 := by decide
    have h2 : (rm raw).length = (rm raw).data.length := length_eq_data _
    rw [h1]
    omega
  · intro h
    rw [sanitizeDescription, if_neg (by omega)]
  · intro db f2 env req a ha
    rcases notify_effects_cases rm db f2 env req _ ha with h | ⟨r, _, h⟩
    · exact Effect.noConfusion h
    · injection h with h2
      rw [h2]
      rfl

/-- Claim C7, witness: a 501-character stripped description is truncated
to 503 units. -/
theorem C7_truncation_witness :
    (sanitizeDescription exId (String.mk (List.replicate 501 'x'))).length =
      MAX_DESCRIPTION_LENGTH + 3 := by
  have h := C7_truncation exId (String.mk (List.replicate 501 'x'))
  exact (h.1 (by decide)).2

/-- Claim C8, confirmed.  For every request, every effect in the notify
trace is either the single SELECT query bound to the request chainId
and dao, or an outbound sendMessage; in particular no store write
(insert, update or delete) ever occurs, for any delivery oracle,
including oracles under which destinations exhaust all retries. -/
theorem C8_store_readonly (rm : String → String) (db : String → String → List Registration)
    (f2 : Nat → Nat → FetchOutcome) (env : Env) (req : NotifyRequest) :
    ∀ e ∈ (notify rm db f2 env req).2,
      (∀ sql ps, e ≠ Effect.dbWrite sql ps) ∧
        (e = Effect.dbQuery SELECT_SQL (req.chainId.getD "") (req.dao.getD "") ∨
          ∃ a, e = Effect.sendMessage a) := by
  intro e he
  rcases notify_effects_cases rm db f2 env req e he with h | ⟨r, _, h⟩
  · subst h
    exact ⟨fun sql ps hco => Effect.noConfusion hco, Or.inl rfl⟩
  · subst h
    exact ⟨fun sql ps hco => Effect.noConfusion hco,
      Or.inr ⟨registrationArgs (requestText rm req) r, rfl⟩⟩

/-- Claim C8, witness: the SELECT effect of a concrete dispatch, which
is not a write and is the query bound to the request parameters. -/
theorem C8_store_readonly_witness :
    (∀ sql ps, Effect.dbQuery SELECT_SQL "chain-1" "dao1" ≠ Effect.dbWrite sql ps) ∧
      (Effect.dbQuery SELECT_SQL "chain-1" "dao1" =
          Effect.dbQuery SELECT_SQL (exReq.chainId.getD "") (exReq.dao.getD "") ∨
        ∃ a, Effect.dbQuery SELECT_SQL "chain-1" "dao1" = Effect.sendMessage a) :=
  C8_store_readonly exId exDb1 exOkOracle exEnv exReq
    (Effect.dbQuery SELECT_SQL "chain-1" "dao1") (by decide)

/-- Claim C9, confirmed.  A fetch call that resolves counts as a
successful delivery and ends the destination attempts regardless of
the HTTP status (the status is universally quantified, covering 4xx
and 5xx provider rejections), with exactly one call made; and a
destination succeeds exactly when one of its first RETRIES attempts
resolves, so the count tallies completed HTTP exchanges rather than
provider-accepted messages. -/
theorem C9_completed_counts :
    (∀ (f : Nat → FetchOutcome) (args : SendArgs) (status : Nat),
      f 0 = FetchOutcome.completed status →
        deliverOne f args = (true, [Effect.sendMessage args])) ∧
    (∀ (f : Nat → FetchOutcome) (args : SendArgs),
      (deliverOne f args).1 = true ↔ ∃ k, k < RETRIES ∧ f k ≠ FetchOutcome.thrown) := by
  constructor
  · intro f args status h
    simp [deliverOne, RETRIES, attemptSend, h]
  · intro f args
    rcases h0 : f 0 with st0 | _
    · have hL : (deliverOne f args).1 = true := by
        simp [deliverOne, RETRIES, attemptSend, h0]
      constructor
      · intro
        exact ⟨0, by simp [RETRIES], by simp [h0]⟩
      · intro
        exact hL
    · rcases h1 : f 1 with st1 | _
      · have hL : (deliverOne f args).1 = true := by
          simp [deliverOne, RETRIES, attemptSend, h0, h1]
        constructor
        · intro
          exact ⟨1, by simp [RETRIES], by simp [h1]⟩
        · intro
          exact hL
      · rcases h2 : f 2 with st2 | _
        · have hL : (deliverOne f args).1 = true := by
            simp [deliverOne, RETRIES, attemptSend, h0, h1, h2]
          constructor
          · intro
            exact ⟨2, by simp [RETRIES], by simp [h2]⟩
          · intro
            exact hL
        · have hL : (deliverOne f args).1 = false := by
            simp [deliverOne, RETRIES, attemptSend, h0, h1, h2]
          constructor
          · intro hcon
            rw [hL] at hcon
            cases hcon
          · rintro ⟨k, hk, hne⟩
            have hk3 : k = 0 ∨ k = 1 ∨ k = 2 := by
              simp only [RETRIES] at hk
              omega
            rcases hk3 with h | h | h <;> subst h
            · exact absurd h0 hne
            · exact absurd h1 hne
            · exact absurd h2 hne

/-- Claim C9, witness: a fetch resolving with HTTP status 500 is still
counted as a success with a single call. -/
theorem C9_completed_counts_witness :
    deliverOne (fun _ => FetchOutcome.completed 500) (SendArgs.mk (JsNum.int 7) none "m") =
      (true, [Effect.sendMessage (SendArgs.mk (JsNum.int 7) none "m")]) :=
  C9_completed_counts.1 (fun _ => FetchOutcome.completed 500)
    (SendArgs.mk (JsNum.int 7) none "m") 500 rfl

/-- Claim C10, corrected.  The amended statement: the chat_id (and the
message_thread_id when a nonempty thread string is present) passed to
the delivery client equals the integer denoted by the stored decimal
string whenever that integer has absolute value at most 2 ^ 53 — the
exactly-representable range of the IEEE-754 double produced by the JS
Number conversion.  The original claim asserted value preservation for
the whole signed 64-bit range, which is false: Number rounds integers
above 2 ^ 53 (see the counterexample). -/
theorem C10_id_amended (s t : String) (v : Int) (mt : Option String)
    (hs : parseDecInt s = some v) (hv : v.natAbs ≤ 2 ^ 53) :
    (registrationArgs t (Registration.mk s mt)).chat_id = JsNum.int v ∧
      (∀ (ts : String) (w : Int), mt = some ts → ts.data ≠ [] → parseDecInt ts = some w →
        w.natAbs ≤ 2 ^ 53 →
        (registrationArgs t (Registration.mk s mt)).message_thread_id = some (JsNum.int w)) := by
  constructor
  · show jsNumber s = JsNum.int v
    exact jsNumber_exact s v hs hv
  · intro ts w hmt hts hw hwv
    subst hmt
    show (if ts.data = [] then none else some (jsNumber ts)) = some (JsNum.int w)
    rw [if_neg hts, jsNumber_exact ts w hw hwv]

/-- Claim C10, counterexample to the original claim: the decimal strings
9007199254740993 and 9007199254740995 denote integers inside the signed
64-bit range, yet the chat_id and message_thread_id passed to the
delivery client are the rounded doubles 9007199254740992 and
9007199254740996. -/
theorem C10_id_counterexample :
    parseDecInt "9007199254740993" = some 9007199254740993 ∧
      (9007199254740993 : Int).natAbs < 2 ^ 63 ∧
      (registrationArgs "t" (Registration.mk "9007199254740993"
          (some "9007199254740995"))).chat_id = JsNum.int 9007199254740992 ∧
      (registrationArgs "t" (Registration.mk "9007199254740993"
          (some "9007199254740995"))).message_thread_id = some (JsNum.int 9007199254740996) ∧
      JsNum.int 9007199254740992 ≠ JsNum.int 9007199254740993 := by
  decide

/-- Claim C10, witness: a chat id and thread id in the safe range are
passed through exactly. -/
theorem C10_id_witness :
    (registrationArgs "x" (Registration.mk "123" (some "45"))).chat_id = JsNum.int 123 ∧
      (registrationArgs "x" (Registration.mk "123" (some "45"))).message_thread_id =
        some (JsNum.int 45) := by
  have h := C10_id_amended "123" "x" 123 (some "45") (by decide) (by decide)
  exact ⟨h.1, h.2 "45" 45 rfl (by decide) (by decide) (by decide)⟩

end DaoNotifier
